import Mathlib

set_option maxRecDepth 40000

/-!
Shallow embedding of the shetka-api backend (src/api.py): the Telegram
WebApp initData signature verifier, the order repository (list-by-owner,
upsert-by-public_no) and the two HTTP handlers built on them.

Bytes are `Nat` values below 256, 32-bit words are `Nat` values reduced
modulo 2^32 at every operation, and strings are Lean `String`s processed
through their underlying `List Char`.
-/

namespace Shetka

/-! ### Bytes, UTF-8 and hex -/

/-- UTF-8 encoding of a single Unicode scalar value, as a list of bytes. -/
def utf8EncodeChar (c : Char) : List Nat :=
  let n := c.toNat
  if n < 128 then [n]
  else if n < 2048 then
    [192 + n / 64, 128 + n % 64]
  else if n < 65536 then
    [224 + n / 4096, 128 + (n / 64) % 64, 128 + n % 64]
  else
    [240 + n / 262144, 128 + (n / 4096) % 64, 128 + (n / 64) % 64, 128 + n % 64]

/-- The UTF-8 bytes of a string (Python's `str.encode()`). -/
def strBytes (s : String) : List Nat :=
  s.data.flatMap utf8EncodeChar

/-- Lower-case hex digit for a value below 16. -/
def hexDigitChar (n : Nat) : Char :=
  if n < 10 then Char.ofNat (48 + n) else Char.ofNat (87 + n)

/-- Lower-case hexadecimal rendering of a byte list (Python `hexdigest`). -/
def hexEncode (bs : List Nat) : String :=
  String.mk (bs.flatMap fun b => [hexDigitChar (b / 16 % 16), hexDigitChar (b % 16)])

/-! ### SHA-256 -/

def w32 : Nat := 4294967296

def mask32 : Nat := 4294967295

/-- Right rotation of a 32-bit word. -/
def rotr (n x : Nat) : Nat := ((x >>> n) ||| (x <<< (32 - n))) % w32

def shaCh (x y z : Nat) : Nat := (x &&& y) ^^^ ((x ^^^ mask32) &&& z)

def shaMaj (x y z : Nat) : Nat := (x &&& y) ^^^ (x &&& z) ^^^ (y &&& z)

def bigSigma0 (x : Nat) : Nat := rotr 2 x ^^^ rotr 13 x ^^^ rotr 22 x

def bigSigma1 (x : Nat) : Nat := rotr 6 x ^^^ rotr 11 x ^^^ rotr 25 x

def smallSigma0 (x : Nat) : Nat := rotr 7 x ^^^ rotr 18 x ^^^ (x >>> 3)

def smallSigma1 (x : Nat) : Nat := rotr 17 x ^^^ rotr 19 x ^^^ (x >>> 10)

/-- The SHA-256 round constants. -/
def shaK : List Nat :=
  [1116352408, 1899447441, 3049323471, 3921009573, 961987163, 1508970993,
   2453635748, 2870763221, 3624381080, 310598401, 607225278, 1426881987,
   1925078388, 2162078206, 2614888103, 3248222580, 3835390401, 4022224774,
   264347078, 604807628, 770255983, 1249150122, 1555081692, 1996064986,
   2554220882, 2821834349, 2952996808, 3210313671, 3336571891, 3584528711,
   113926993, 338241895, 666307205, 773529912, 1294757372, 1396182291,
   1695183700, 1986661051, 2177026350, 2456956037, 2730485921, 2820302411,
   3259730800, 3345764771, 3516065817, 3600352804, 4094571909, 275423344,
   430227734, 506948616, 659060556, 883997877, 958139571, 1322822218,
   1537002063, 1747873779, 1955562222, 2024104815, 2227730452, 2361852424,
   2428436474, 2756734187, 3204031479, 3329325298]

/-- The SHA-256 initial hash state. -/
def shaH0 : List Nat :=
  [1779033703, 3144134277, 1013904242, 2773480762,
   1359893119, 2600822924, 528734635, 1541459225]

/-- One step of the message-schedule extension; `rw` holds the words computed
so far, most recent first. -/
def schedStep (rw : List Nat) : Nat :=
  (smallSigma1 (rw.getD 1 0) + rw.getD 6 0 + smallSigma0 (rw.getD 14 0)
    + rw.getD 15 0) % w32

/-- Extend the reversed schedule by `n` further words. -/
def schedExtend : Nat → List Nat → List Nat
  | 0, rw => rw
  | n + 1, rw => schedExtend n (schedStep rw :: rw)

/-- The full 64-word message schedule of one block (given as 16 words). -/
def schedule (block : List Nat) : List Nat :=
  (schedExtend 48 block.reverse).reverse

/-- One SHA-256 round: the state is the list `[a, b, c, d, e, f, g, h]` and
`wk` is the current schedule word plus round constant. -/
def shaRound (st : List Nat) (wk : Nat) : List Nat :=
  let a := st.getD 0 0
  let b := st.getD 1 0
  let c := st.getD 2 0
  let d := st.getD 3 0
  let e := st.getD 4 0
  let f := st.getD 5 0
  let g := st.getD 6 0
  let h := st.getD 7 0
  let t1 := (h + bigSigma1 e + shaCh e f g + wk) % w32
  let t2 := (bigSigma0 a + shaMaj a b c) % w32
  [(t1 + t2) % w32, a, b, c, (d + t1) % w32, e, f, g]

/-- Compress one 16-word block into the running state. -/
def shaCompress (st : List Nat) (block : List Nat) : List Nat :=
  let ws := schedule block
  let wks := List.zipWith (fun w k => (w + k) % w32) ws shaK
  let st2 := wks.foldl shaRound st
  List.zipWith (fun x y => (x + y) % w32) st st2

/-- Merkle-Damgard padding: append `0x80`, zeros, and the 64-bit big-endian
bit length, reaching a multiple of 64 bytes. -/
def shaPad (msg : List Nat) : List Nat :=
  let len := msg.length
  let zeros := (119 - len % 64) % 64
  let bitLen := 8 * len
  msg ++ [128] ++ List.replicate zeros 0 ++
    [bitLen / 72057594037927936 % 256, bitLen / 281474976710656 % 256,
     bitLen / 1099511627776 % 256, bitLen / 4294967296 % 256,
     bitLen / 16777216 % 256, bitLen / 65536 % 256,
     bitLen / 256 % 256, bitLen % 256]

/-- Group bytes four at a time into big-endian 32-bit words. -/
def bytesToWords : List Nat → List Nat
  | a :: b :: c :: d :: rest =>
      (((a * 256 + b) * 256 + c) * 256 + d) :: bytesToWords rest
  | _ => []

/-- Group words sixteen at a time into blocks. -/
def wordsToBlocks : List Nat → List (List Nat)
  | w0 :: w1 :: w2 :: w3 :: w4 :: w5 :: w6 :: w7 ::
    w8 :: w9 :: w10 :: w11 :: w12 :: w13 :: w14 :: w15 :: rest =>
      [w0, w1, w2, w3, w4, w5, w6, w7, w8, w9, w10, w11, w12, w13, w14, w15]
        :: wordsToBlocks rest
  | _ => []

/-- A 32-bit word as four big-endian bytes. -/
def wordToBytes (w : Nat) : List Nat :=
  [w / 16777216 % 256, w / 65536 % 256, w / 256 % 256, w % 256]

/-- SHA-256 digest of a byte list, as 32 bytes. -/
def sha256 (msg : List Nat) : List Nat :=
  let blocks := wordsToBlocks (bytesToWords (shaPad msg))
  (blocks.foldl shaCompress shaH0).flatMap wordToBytes

/-- HMAC-SHA256 (block size 64) of `msg` under `key`, as 32 bytes. -/
def hmacSha256 (key msg : List Nat) : List Nat :=
  let k0 := if 64 < key.length then sha256 key else key
  let kp := k0 ++ List.replicate (64 - k0.length) 0
  let ipadded := kp.map fun b => b ^^^ 54
  let opadded := kp.map fun b => b ^^^ 92
  sha256 (opadded ++ sha256 (ipadded ++ msg))

/-! ### Python string helpers -/

/-- Python `str.isspace` for a single character. -/
def isPySpace (c : Char) : Bool :=
  let n := c.toNat
  (9 ≤ n && n ≤ 13) || (28 ≤ n && n ≤ 32) || n == 133 || n == 160 ||
    n == 5760 || (8192 ≤ n && n ≤ 8202) || n == 8232 || n == 8233 ||
    n == 8239 || n == 8287 || n == 12288

/-- Python `str.strip()`: remove leading and trailing whitespace. -/
def pyStrip (s : String) : String :=
  String.mk (((s.data.dropWhile isPySpace).reverse.dropWhile isPySpace).reverse)

/-- Python `str.split(sep)` on a single-character separator: splits on every
occurrence, keeping empty segments; the empty string yields one empty
segment. -/
def splitOnChar (sep : Char) : List Char → List (List Char)
  | [] => [[]]
  | c :: cs =>
      if c = sep then [] :: splitOnChar sep cs
      else
        match splitOnChar sep cs with
        | [] => [[c]]
        | g :: gs => (c :: g) :: gs

/-- Python `str.split(sep, 1)`: break at the first occurrence of `sep`;
`none` as second component when `sep` does not occur. -/
def splitFirst (sep : Char) : List Char → List Char × Option (List Char)
  | [] => ([], none)
  | c :: cs =>
      if c = sep then ([], some cs)
      else
        let r := splitFirst sep cs
        (c :: r.1, r.2)

/-- Value of a hexadecimal digit character, upper or lower case. -/
def hexVal (c : Char) : Option Nat :=
  let n := c.toNat
  if 48 ≤ n && n ≤ 57 then some (n - 48)
  else if 97 ≤ n && n ≤ 102 then some (n - 87)
  else if 65 ≤ n && n ≤ 70 then some (n - 55)
  else none

/-- Intermediate token of `urllib.parse.unquote`: ASCII characters become
bytes (with `%XX` sequences decoded), non-ASCII characters pass through. -/
inductive UItem where
  | byte : Nat → UItem
  | chr : Char → UItem

/-- Percent-decode pass of `unquote` (fuel-driven recursion; the fuel is an
upper bound on the number of characters left).  ASCII characters (and
decoded `%XX` pairs) become bytes, other characters are kept as
characters.  A `%` not followed by two hex digits stands for itself. -/
def toItemsF : Nat → List Char → List UItem
  | 0, _ => []
  | _, [] => []
  | fuel + 1, c :: cs =>
      if c.toNat < 128 then
        if c = '%' then
          match cs with
          | a :: b :: rest =>
              match hexVal a, hexVal b with
              | some ha, some hb => .byte (16 * ha + hb) :: toItemsF fuel rest
              | _, _ => .byte 37 :: toItemsF fuel cs
          | _ => .byte 37 :: toItemsF fuel cs
        else .byte c.toNat :: toItemsF fuel cs
      else .chr c :: toItemsF fuel cs

/-- Percent-decode pass of `unquote` on a full character list. -/
def toItems (cs : List Char) : List UItem := toItemsF cs.length cs

/-- The Unicode replacement character. -/
def repl : Char := Char.ofNat 65533

/-- Is `b` a UTF-8 continuation byte? -/
def isCont (b : Nat) : Bool := 128 ≤ b && b < 192

/-- Valid range test for the first continuation byte of a three-byte
sequence starting with `b`. -/
def cont1ok3 (b b1 : Nat) : Bool :=
  if b == 224 then 160 ≤ b1 && b1 < 192
  else if b == 237 then 128 ≤ b1 && b1 < 160
  else isCont b1

/-- Valid range test for the first continuation byte of a four-byte
sequence starting with `b`. -/
def cont1ok4 (b b1 : Nat) : Bool :=
  if b == 240 then 144 ≤ b1 && b1 < 192
  else if b == 244 then 128 ≤ b1 && b1 < 144
  else isCont b1

/-- UTF-8 decoding with `errors='replace'` over the item stream
(fuel-driven recursion): byte items are decoded, each maximal invalid
subpart becoming one replacement character; character items pass through
(ending any pending sequence). -/
def decodeItemsF : Nat → List UItem → List Char
  | 0, _ => []
  | _, [] => []
  | fuel + 1, .chr c :: rest => c :: decodeItemsF fuel rest
  | fuel + 1, .byte b :: rest =>
      if b < 128 then Char.ofNat b :: decodeItemsF fuel rest
      else if b < 194 then repl :: decodeItemsF fuel rest
      else if b < 224 then
        match rest with
        | .byte b1 :: rest1 =>
            if isCont b1 then
              Char.ofNat ((b - 192) * 64 + (b1 - 128)) :: decodeItemsF fuel rest1
            else repl :: decodeItemsF fuel rest
        | _ => repl :: decodeItemsF fuel rest
      else if b < 240 then
        match rest with
        | .byte b1 :: rest1 =>
            if cont1ok3 b b1 then
              match rest1 with
              | .byte b2 :: rest2 =>
                  if isCont b2 then
                    Char.ofNat ((b - 224) * 4096 + (b1 - 128) * 64 + (b2 - 128))
                      :: decodeItemsF fuel rest2
                  else repl :: decodeItemsF fuel rest1
              | _ => repl :: decodeItemsF fuel rest1
            else repl :: decodeItemsF fuel rest
        | _ => repl :: decodeItemsF fuel rest
      else if b < 245 then
        match rest with
        | .byte b1 :: rest1 =>
            if cont1ok4 b b1 then
              match rest1 with
              | .byte b2 :: rest2 =>
                  if isCont b2 then
                    match rest2 with
                    | .byte b3 :: rest3 =>
                        if isCont b3 then
                          Char.ofNat ((b - 240) * 262144 + (b1 - 128) * 4096
                              + (b2 - 128) * 64 + (b3 - 128))
                            :: decodeItemsF fuel rest3
                        else repl :: decodeItemsF fuel rest2
                    | _ => repl :: decodeItemsF fuel rest2
                  else repl :: decodeItemsF fuel rest1
              | _ => repl :: decodeItemsF fuel rest1
            else repl :: decodeItemsF fuel rest
        | _ => repl :: decodeItemsF fuel rest
      else repl :: decodeItemsF fuel rest

/-- UTF-8 `errors='replace'` decoding of a full item list. -/
def decodeItems (items : List UItem) : List Char :=
  decodeItemsF items.length items

/-- Python `urllib.parse.unquote` with UTF-8 and `errors='replace'`. -/
def pyUnquote (s : String) : String :=
  String.mk (decodeItems (toItems s.data))

/-- Plus-to-space translation done by `parse_qsl` before unquoting. -/
def plusToSpace (cs : List Char) : List Char :=
  cs.map fun c => if c = '+' then ' ' else c

/-- Python `urllib.parse.parse_qsl(qs, keep_blank_values=True)`: split on
`&`, drop empty segments, split each segment at the first `=` (missing `=`
means empty value), translate `+` to space and percent-decode name and
value. -/
def parseQsl (qs : String) : List (String × String) :=
  if qs = "" then []
  else
    (splitOnChar '&' qs.data).flatMap fun nv =>
      if nv = [] then []
      else
        let p := splitFirst '=' nv
        let v := match p.2 with
          | some v => v
          | none => []
        [(pyUnquote (String.mk (plusToSpace p.1)),
          pyUnquote (String.mk (plusToSpace v)))]

/-! ### Python dict association lists (insertion order, last value wins) -/

/-- Insert or overwrite one binding, Python-dict style: an existing key
keeps its position and takes the new value, a new key goes to the end. -/
def dictUpd (acc : List (String × α)) (kv : String × α) : List (String × α) :=
  if acc.any (fun p => p.1 = kv.1) then
    acc.map fun p => if p.1 = kv.1 then (p.1, kv.2) else p
  else acc ++ [kv]

/-- Python `dict(pairs)`: fold the bindings left to right. -/
def pyDictOf (l : List (String × α)) : List (String × α) :=
  l.foldl dictUpd []

/-- Python `d.get(k)`. -/
def dictGet (d : List (String × α)) (k : String) : Option α :=
  (d.find? fun p => p.1 = k).map fun p => p.2

/-- Python `d.pop(k, None)` (the resulting dict). -/
def dictPop (d : List (String × α)) (k : String) : List (String × α) :=
  d.filter fun p => p.1 ≠ k

/-! ### Sorting keys (Python `sorted` on strings) -/

/-- Lexicographic comparison of character lists by code point. -/
def charListLt : List Char → List Char → Bool
  | [], [] => false
  | [], _ :: _ => true
  | _ :: _, [] => false
  | a :: as, b :: bs =>
      if a.toNat < b.toNat then true
      else if b.toNat < a.toNat then false
      else charListLt as bs

/-- Python string `<`: lexicographic by code point. -/
def strLtB (a b : String) : Bool := charListLt a.data b.data

/-- Insert a string into an ascending list. -/
def insSortedKey (k : String) : List String → List String
  | [] => [k]
  | x :: xs => if strLtB k x then k :: x :: xs else x :: insSortedKey k xs

/-- Insertion sort, ascending by `strLtB` (Python `sorted`). -/
def sortStrs : List String → List String
  | [] => []
  | x :: xs => insSortedKey x (sortStrs xs)

/-- Join with single newlines, no trailing newline (Python `"\n".join`). -/
def joinNl : List String → String
  | [] => ""
  | [s] => s
  | s :: rest => s ++ "\n" ++ joinNl rest

/-- The canonical data-check string of `verify_init_data`: remaining pairs
sorted by key, rendered `key=value`, joined by newlines. -/
def checkString (d : List (String × String)) : String :=
  joinNl ((sortStrs (d.map fun p => p.1)).map fun k =>
    k ++ "=" ++ (dictGet d k).getD "")

/-! ### JSON values and `json.loads` -/

/-- A Python JSON value as produced by `json.loads`.  Numbers written
without fraction or exponent are exact integers; other numbers are kept as
an exact decimal mantissa and power of ten (`jfloat m e` stands for
`m * 10 ^ e`); the non-standard literals accepted by Python are
represented by `jnan` and `jinf`. -/
inductive JVal where
  | jnull : JVal
  | jbool : Bool → JVal
  | jint : Int → JVal
  | jfloat : Int → Int → JVal
  | jnan : JVal
  | jinf : Bool → JVal
  | jstr : String → JVal
  | jarr : List JVal → JVal
  | jobj : List (String × JVal) → JVal

/-- JSON whitespace (the characters `json.decoder` skips). -/
def isJsonWs (c : Char) : Bool :=
  c == ' ' || c == Char.ofNat 9 || c == Char.ofNat 10 || c == Char.ofNat 13

/-- Skip JSON whitespace. -/
def skipWs (cs : List Char) : List Char := cs.dropWhile isJsonWs

/-- Strip a literal from the front of the input, if present. -/
def stripLit : List Char → List Char → Option (List Char)
  | [], cs => some cs
  | _ :: _, [] => none
  | l :: ls, c :: cs => if c = l then stripLit ls cs else none

/-- Numeric value of a digit run. -/
def digitsToNat (ds : List Char) : Nat :=
  ds.foldl (fun a c => 10 * a + (c.toNat - 48)) 0

/-- Parse a JSON string body (after the opening quote), strict mode:
raw control characters are rejected, the eight simple escapes and
`\uXXXX` (with surrogate pairs) are decoded.  A lone surrogate becomes
U+FFFD, the one spot where the embedding coarsens CPython (whose `str`
can hold lone surrogates, unrepresentable in a Lean `Char`). -/
def parseJStrAux : Nat → List Char → List Char → Option (String × List Char)
  | 0, _, _ => none
  | _, _, [] => none
  | fuel + 1, acc, c :: rest =>
      if c = Char.ofNat 34 then some (String.mk acc.reverse, rest)
      else if c = Char.ofNat 92 then
        match rest with
        | [] => none
        | e :: rest2 =>
            if e = Char.ofNat 34 then parseJStrAux fuel (Char.ofNat 34 :: acc) rest2
            else if e = Char.ofNat 92 then parseJStrAux fuel (Char.ofNat 92 :: acc) rest2
            else if e = '/' then parseJStrAux fuel ('/' :: acc) rest2
            else if e = 'b' then parseJStrAux fuel (Char.ofNat 8 :: acc) rest2
            else if e = 'f' then parseJStrAux fuel (Char.ofNat 12 :: acc) rest2
            else if e = 'n' then parseJStrAux fuel (Char.ofNat 10 :: acc) rest2
            else if e = 'r' then parseJStrAux fuel (Char.ofNat 13 :: acc) rest2
            else if e = 't' then parseJStrAux fuel (Char.ofNat 9 :: acc) rest2
            else if e = 'u' then
              match rest2 with
              | h1 :: h2 :: h3 :: h4 :: rest3 =>
                  match hexVal h1, hexVal h2, hexVal h3, hexVal h4 with
                  | some a, some b, some c2, some d =>
                      let n := ((a * 16 + b) * 16 + c2) * 16 + d
                      if 55296 ≤ n && n < 56320 then
                        match rest3 with
                        | u1 :: u2 :: j1 :: j2 :: j3 :: j4 :: rest4 =>
                            if u1 = Char.ofNat 92 && u2 = 'u' then
                              match hexVal j1, hexVal j2, hexVal j3, hexVal j4 with
                              | some a2, some b2, some c3, some d2 =>
                                  let m := ((a2 * 16 + b2) * 16 + c3) * 16 + d2
                                  if 56320 ≤ m && m < 57344 then
                                    parseJStrAux fuel
                                      (Char.ofNat (65536 + (n - 55296) * 1024 + (m - 56320)) :: acc)
                                      rest4
                                  else parseJStrAux fuel (repl :: acc) rest3
                              | _, _, _, _ => parseJStrAux fuel (repl :: acc) rest3
                            else parseJStrAux fuel (repl :: acc) rest3
                        | _ => parseJStrAux fuel (repl :: acc) rest3
                      else if 56320 ≤ n && n < 57344 then
                        parseJStrAux fuel (repl :: acc) rest3
                      else parseJStrAux fuel (Char.ofNat n :: acc) rest3
                  | _, _, _, _ => none
              | _ => none
            else none
      else if c.toNat < 32 then none
      else parseJStrAux fuel (c :: acc) rest

/-- Parse a JSON number at the head of the input, per the `json` module's
regular expression `-?(0|[1-9][0-9]*)(\.[0-9]+)?([eE][+-]?[0-9]+)?`. -/
def parseNum (cs : List Char) : Option (JVal × List Char) :=
  let sgn := match cs with
    | c :: r => if c = '-' then (true, r) else (false, cs)
    | [] => (false, cs)
  let neg := sgn.1
  let cs1 := sgn.2
  match cs1 with
  | [] => none
  | c :: _ =>
      if c.isDigit then
        let ipr := if c = '0' then ([c], cs1.tail)
          else (cs1.takeWhile Char.isDigit, cs1.dropWhile Char.isDigit)
        let ip := ipr.1
        let cs2 := ipr.2
        let fracRes : Option (List Char × List Char) :=
          match cs2 with
          | d :: r =>
              if d = '.' then
                let ds := r.takeWhile Char.isDigit
                if ds = [] then none else some (ds, r.dropWhile Char.isDigit)
              else none
          | [] => none
        let fr := (fracRes.map fun p => p.1).getD []
        let cs3 := (fracRes.map fun p => p.2).getD cs2
        let expRes : Option (Int × List Char) :=
          match cs3 with
          | e :: r =>
              if e = 'e' || e = 'E' then
                let sr : Int × List Char := match r with
                  | s :: r2 =>
                      if s = '+' then (1, r2)
                      else if s = '-' then (-1, r2)
                      else (1, r)
                  | [] => (1, r)
                let ds := sr.2.takeWhile Char.isDigit
                if ds = [] then none
                else some (sr.1 * (digitsToNat ds : Int), sr.2.dropWhile Char.isDigit)
              else none
          | [] => none
        let cs4 := (expRes.map fun p => p.2).getD cs3
        if fr = [] ∧ expRes = none then
          let v : Int := digitsToNat ip
          some (.jint (if neg then -v else v), cs2)
        else
          let mant : Int := digitsToNat (ip ++ fr)
          let ex : Int := (expRes.map fun p => p.1).getD 0 - fr.length
          some (.jfloat (if neg then -mant else mant) ex, cs4)
      else none

mutual

/-- Parse one JSON value at the head of the input (leading whitespace
already skipped), mirroring `json.decoder`'s scanner. -/
def parseVal : Nat → List Char → Option (JVal × List Char)
  | 0, _ => none
  | _, [] => none
  | fuel + 1, c :: rest =>
      if c = Char.ofNat 34 then
        (parseJStrAux (rest.length + 1) [] rest).map fun p => (.jstr p.1, p.2)
      else if c = Char.ofNat 123 then parseObj fuel [] (skipWs rest)
      else if c = '[' then parseArr fuel [] (skipWs rest)
      else
        match stripLit "true".data (c :: rest) with
        | some r => some (.jbool true, r)
        | none =>
        match stripLit "false".data (c :: rest) with
        | some r => some (.jbool false, r)
        | none =>
        match stripLit "null".data (c :: rest) with
        | some r => some (.jnull, r)
        | none =>
        match parseNum (c :: rest) with
        | some vr => some vr
        | none =>
        match stripLit "NaN".data (c :: rest) with
        | some r => some (.jnan, r)
        | none =>
        match stripLit "Infinity".data (c :: rest) with
        | some r => some (.jinf false, r)
        | none =>
        match stripLit "-Infinity".data (c :: rest) with
        | some r => some (.jinf true, r)
        | none => none

/-- Parse the members of a JSON object after the opening brace (leading
whitespace skipped); `acc` holds the members read so far, in order. -/
def parseObj : Nat → List (String × JVal) → List Char → Option (JVal × List Char)
  | 0, _, _ => none
  | _, _, [] => none
  | fuel + 1, acc, c :: rest =>
      if c = Char.ofNat 125 && acc.isEmpty then some (.jobj [], rest)
      else
        match
          if c = Char.ofNat 34 then parseJStrAux (rest.length + 1) [] rest
          else none
        with
        | none => none
        | some kr =>
            match skipWs kr.2 with
            | [] => none
            | c2 :: rest2 =>
                if c2 = ':' then
                  match parseVal fuel (skipWs rest2) with
                  | none => none
                  | some vr =>
                      match skipWs vr.2 with
                      | [] => none
                      | c3 :: rest3 =>
                          if c3 = Char.ofNat 125 then
                            some (.jobj (pyDictOf (acc ++ [(kr.1, vr.1)])), rest3)
                          else if c3 = ',' then
                            parseObj fuel (acc ++ [(kr.1, vr.1)]) (skipWs rest3)
                          else none
                else none

/-- Parse the elements of a JSON array after the opening bracket (leading
whitespace skipped); `acc` holds the elements read so far, in order. -/
def parseArr : Nat → List JVal → List Char → Option (JVal × List Char)
  | 0, _, _ => none
  | _, _, [] => none
  | fuel + 1, acc, c :: rest =>
      if c = ']' && acc.isEmpty then some (.jarr [], rest)
      else
        match parseVal fuel (c :: rest) with
        | none => none
        | some vr =>
            match skipWs vr.2 with
            | [] => none
            | c2 :: rest2 =>
                if c2 = ']' then some (.jarr (acc ++ [vr.1]), rest2)
                else if c2 = ',' then parseArr fuel (acc ++ [vr.1]) (skipWs rest2)
                else none

end

/-- Python `json.loads`: parse one value, allowing surrounding whitespace
and requiring the whole input to be consumed. -/
def jsonParse (s : String) : Option JVal :=
  match parseVal (2 * s.data.length + 2) (skipWs s.data) with
  | some (v, rest) => if skipWs rest = [] then some v else none
  | none => none

/-! ### Python `int()` coercion -/

/-- Digit run with single underscores allowed between digits, as accepted
by Python `int(str)` after the sign. -/
def digitsUndAux : Nat → List Char → Option Nat
  | acc, [] => some acc
  | acc, c :: cs =>
      if c.isDigit then digitsUndAux (10 * acc + (c.toNat - 48)) cs
      else if c = '_' then
        match cs with
        | d :: cs2 =>
            if d.isDigit then digitsUndAux (10 * acc + (d.toNat - 48)) cs2 else none
        | [] => none
      else none

/-- Python `int(s)` on a string: strip whitespace, optional sign, base-10
digits (underscores allowed between digits); `none` when `int` raises. -/
def pyIntOfStr (s : String) : Option Int :=
  let cs := (pyStrip s).data
  let sgn : Bool × List Char := match cs with
    | c :: r =>
        if c = '-' then (true, r) else if c = '+' then (false, r) else (false, cs)
    | [] => (false, cs)
  match sgn.2 with
  | [] => none
  | c :: _ =>
      if c.isDigit then
        (digitsUndAux 0 sgn.2).map fun n => if sgn.1 then -(n : Int) else (n : Int)
      else none

/-- Python `int(x)` on a decoded JSON value: integers stay, booleans become
0 or 1, floats truncate toward zero, numeric strings parse; everything
else (null, NaN, infinities, arrays, objects) raises, i.e. `none`. -/
def pyInt : JVal → Option Int
  | .jint n => some n
  | .jbool b => some (if b then 1 else 0)
  | .jfloat m e =>
      some (if 0 ≤ e then m * (10 : Int) ^ e.toNat
        else Int.tdiv m ((10 : Int) ^ (-e).toNat))
  | .jstr s => pyIntOfStr s
  | _ => none

/-- Python `d[k]` on a decoded JSON value: a lookup that only succeeds on
an object containing the key (`KeyError` / `TypeError` otherwise). -/
def jGet (v : JVal) (k : String) : Option JVal :=
  match v with
  | .jobj kvs => dictGet kvs k
  | _ => none

/-! ### Errors and the signature verifier -/

/-- Outcome of a failed request: `http c m` is a raised
`HTTPException(c, m)`; `unhandled` is any other uncaught Python exception,
which the framework surfaces as a 500 response, not a 401/400. -/
inductive ApiErr where
  | http : Nat → String → ApiErr
  | unhandled : String → ApiErr
deriving DecidableEq

/-- The derived secret key of `verify_init_data` line 78:
HMAC-SHA256 keyed by the literal bytes `"WebAppData"`, with the bot token
as the message. -/
def secretKeyOf (botToken : String) : List Nat :=
  hmacSha256 (strBytes "WebAppData") (strBytes botToken)

/-- The computed signature of `verify_init_data` line 79: hex-encoded
HMAC-SHA256 of the check-string built from the hash-free pairs, under the
derived secret key. -/
def calcHashOf (botToken : String) (pairs2 : List (String × String)) : String :=
  hexEncode (hmacSha256 (secretKeyOf botToken) (strBytes (checkString pairs2)))

/-- The body of `verify_init_data` after the parse step (src/api.py lines 72-90),
working on the parsed dict: extract and remove `hash` (Python's
`if not x` treats an empty string like a missing key), compare the
received hash against `calcHashOf`, then decode the `user` value as
JSON. -/
def verifyPairs (botToken : String) (pairs : List (String × String)) :
    Except ApiErr JVal :=
  match dictGet pairs "hash" with
  | none => .error (.http 401 "Missing hash")
  | some recvHash =>
      if recvHash = "" then .error (.http 401 "Missing hash")
      else
        let pairs2 := dictPop pairs "hash"
        if calcHashOf botToken pairs2 ≠ recvHash then
          .error (.http 401 "Bad signature")
        else
          match dictGet pairs2 "user" with
          | none => .error (.http 401 "Missing user")
          | some userRaw =>
              if userRaw = "" then .error (.http 401 "Missing user")
              else
                match jsonParse userRaw with
                | some v => .ok v
                | none => .error (.http 401 "Bad user json")

/-- Full `verify_init_data` (src/api.py lines 67-90): reject an empty payload,
parse it with keep-blank-values and dict (last-value-wins) semantics, and
run the signature and user checks of `verifyPairs`. -/
def verifyInitData (botToken : String) (initData : String) : Except ApiErr JVal :=
  if initData = "" then .error (.http 401 "Missing initData")
  else verifyPairs botToken (pyDictOf (parseQsl initData))

/-! ### The orders table and the repository operations -/

/-- A stored row of the `orders` table.  Timestamps are abstract ticks:
`now()` is passed in by the caller. -/
structure OrderRow where
  public_no : String
  owner_tg_id : Option Int
  owner_phone : Option String
  item : String
  services_json : String
  status : String
  price : Option Int
  comment : Option String
  is_closed : Bool
  created_at : Nat
  updated_at : Nat

/-- The `DO UPDATE SET` part of the upsert statement, applied to one row:
a row whose `public_no` conflicts has all mutable fields overwritten and
`updated_at` refreshed (keeping its position, `is_closed` and
`created_at`); any other row is untouched. -/
def updRow (now : Nat) (pn : String) (otg : Option Int) (oph : Option String)
    (it sj st : String) (pr : Option Int) (cm : Option String)
    (r : OrderRow) : OrderRow :=
  if r.public_no = pn then
    ⟨r.public_no, otg, oph, it, sj, st, pr, cm, r.is_closed, r.created_at, now⟩
  else r

/-- The SQL `INSERT ... ON CONFLICT(public_no) DO UPDATE` of
`admin_upsert`: when a row with the same `public_no` exists the table is
rewritten through `updRow`; otherwise a fresh row is appended with both
timestamps set to `now`. -/
def dbUpsert (now : Nat) (pn : String) (otg : Option Int) (oph : Option String)
    (it sj st : String) (pr : Option Int) (cm : Option String)
    (db : List OrderRow) : List OrderRow :=
  if db.any fun r => r.public_no = pn then
    db.map (updRow now pn otg oph it sj st pr cm)
  else db ++ [⟨pn, otg, oph, it, sj, st, pr, cm, false, now, now⟩]

/-- Insert a row into a list that is sorted by `created_at` descending. -/
def insRowDesc (r : OrderRow) : List OrderRow → List OrderRow
  | [] => [r]
  | x :: xs =>
      if x.created_at < r.created_at then r :: x :: xs else x :: insRowDesc r xs

/-- Sort rows by `created_at` descending (the `ORDER BY created_at DESC`). -/
def sortRowsDesc : List OrderRow → List OrderRow
  | [] => []
  | x :: xs => insRowDesc x (sortRowsDesc xs)

/-- The `SELECT ... WHERE owner_tg_id=$1 ORDER BY created_at DESC` of
`me_orders`: rows of the given owner, most recent first.  A SQL `NULL`
`owner_tg_id` matches no identifier. -/
def listByOwner (tgId : Int) (db : List OrderRow) : List OrderRow :=
  sortRowsDesc (db.filter fun r => r.owner_tg_id = some tgId)

/-! ### The request handlers -/

/-- One order of the `/api/me/orders` response envelope, with
`services_json` decoded back to a JSON value. -/
structure OrderOut where
  public_no : String
  item : String
  services : JVal
  status : String
  price : Option Int
  comment : Option String
  created_at : Nat
  updated_at : Nat

/-- Decode each row's `services_json` (`json.loads(r["services_json"] or
"[]")`); a row that fails to decode raises, which surfaces as an
unhandled error. -/
def decodeRows : List OrderRow → Except ApiErr (List OrderOut)
  | [] => .ok []
  | r :: rs =>
      match jsonParse (if r.services_json = "" then "[]" else r.services_json) with
      | none => .error (.unhandled "services json decode failed")
      | some v =>
          match decodeRows rs with
          | .ok outs =>
              .ok (⟨r.public_no, r.item, v, r.status, r.price, r.comment,
                r.created_at, r.updated_at⟩ :: outs)
          | .error e => .error e

/-- Handler of `GET /api/me/orders` (src/api.py lines 108-134): verify the
`X-Telegram-InitData` header, coerce `user["id"]` to an integer — both a
missing/unusable `id` and a non-coercible one raise an ordinary Python
exception, not an `HTTPException` — then list the owner's orders. -/
def meOrders (botToken : String) (initData : String) (db : List OrderRow) :
    Except ApiErr (List OrderOut) :=
  match verifyInitData botToken initData with
  | .error e => .error e
  | .ok user =>
      match jGet user "id" with
      | none => .error (.unhandled "user id lookup raised")
      | some idv =>
          match pyInt idv with
          | none => .error (.unhandled "int(user id) raised")
          | some tgId => decodeRows (listByOwner tgId db)

/-- The JSON body of `POST /api/admin/order/upsert`, after `req.json()`:
`public_no`, `item` and `status` carry `str(body.get(k, ""))`, the
optional fields carry `body.get(k)` and `services` carries
`body.get("services") or []` with its entries already rendered through
`str`. -/
structure UpsertBody where
  public_no : String
  item : String
  status : String
  owner_tg_id : Option Int
  owner_phone : Option String
  services : List String
  price : Option Int
  comment : Option String

/-- The services normalization of `admin_upsert` line 156:
`[str(x).strip() for x in services if str(x).strip()]`. -/
def servicesClean (l : List String) : List String :=
  (l.map pyStrip).filter fun s => s ≠ ""

/-- Python `json.dumps` escaping of one character with
`ensure_ascii=False`: quote, backslash and control characters are escaped,
everything else is kept. -/
def jsonEscapeChar (c : Char) : List Char :=
  if c = Char.ofNat 34 then [Char.ofNat 92, Char.ofNat 34]
  else if c = Char.ofNat 92 then [Char.ofNat 92, Char.ofNat 92]
  else if c = Char.ofNat 8 then [Char.ofNat 92, 'b']
  else if c = Char.ofNat 12 then [Char.ofNat 92, 'f']
  else if c = Char.ofNat 10 then [Char.ofNat 92, 'n']
  else if c = Char.ofNat 13 then [Char.ofNat 92, 'r']
  else if c = Char.ofNat 9 then [Char.ofNat 92, 't']
  else if c.toNat < 32 then
    [Char.ofNat 92, 'u', '0', '0',
     hexDigitChar (c.toNat / 16), hexDigitChar (c.toNat % 16)]
  else [c]

/-- Python `json.dumps` of a string, `ensure_ascii=False`. -/
def jsonDumpStr (s : String) : String :=
  String.mk (Char.ofNat 34 :: s.data.flatMap jsonEscapeChar ++ [Char.ofNat 34])

/-- Python `json.dumps` of a list of strings, `ensure_ascii=False` and
default separators (`", "`). -/
def jsonDumpStrList (l : List String) : String :=
  "[" ++ joinComma (l.map jsonDumpStr) ++ "]"
where
  joinComma : List String → String
    | [] => ""
    | [s] => s
    | s :: rest => s ++ ", " ++ joinComma rest

/-- Handler of `POST /api/admin/order/upsert` (src/api.py lines 136-177):
check the `X-Admin-Token` header against the configured admin token
before anything else, then parse the body (`body = none` stands for an
unparseable body, whose `req.json()` raises), validate the required
fields, normalize `services`, and upsert.  The returned pair is the
response outcome and the resulting orders table. -/
def adminUpsert (adminToken : String) (token : String) (body : Option UpsertBody)
    (now : Nat) (db : List OrderRow) : Except ApiErr Unit × List OrderRow :=
  if token ≠ adminToken then (.error (.http 401 "Bad admin token"), db)
  else
    match body with
    | none => (.error (.unhandled "request body json decode raised"), db)
    | some b =>
        let pn := pyStrip b.public_no
        if pn = "" then (.error (.http 400 "public_no required"), db)
        else
          let it := pyStrip b.item
          let st := pyStrip b.status
          if it = "" ∨ st = "" then (.error (.http 400 "item/status required"), db)
          else
            let sj := jsonDumpStrList (servicesClean b.services)
            (.ok (), dbUpsert now pn b.owner_tg_id b.owner_phone it sj st
              b.price b.comment db)

/-- Does a handler outcome carry an `HTTPException` with the given status
code? -/
def isHttpStatus (code : Nat) : Except ApiErr α → Bool
  | .error (.http c _) => c == code
  | _ => false

/-! ## Lemmas -/

theorem shaRound_length (st : List Nat) (wk : Nat) : (shaRound st wk).length = 8 :=
  rfl

theorem foldl_shaRound_length (wks : List Nat) (st : List Nat) (h : st.length = 8) :
    (wks.foldl shaRound st).length = 8 := by
  induction wks generalizing st with
  | nil => simpa using h
  | cons w ws ih => simpa using ih _ (shaRound_length st w)

theorem shaCompress_length (st block : List Nat) (h : st.length = 8) :
    (shaCompress st block).length = 8 := by
  simp [shaCompress, List.length_zipWith, h,
    foldl_shaRound_length _ _ h]

theorem foldl_shaCompress_length (blocks : List (List Nat)) (st : List Nat)
    (h : st.length = 8) : (blocks.foldl shaCompress st).length = 8 := by
  induction blocks generalizing st with
  | nil => simpa using h
  | cons b bs ih => simpa using ih _ (shaCompress_length st b h)

theorem flatMap_wordToBytes_length (l : List Nat) :
    (l.flatMap wordToBytes).length = 4 * l.length := by
  induction l with
  | nil => rfl
  | cons w ws ih =>
      simp only [List.flatMap_cons, List.length_append, ih, List.length_cons]
      simp [wordToBytes]
      omega

theorem sha256_length (msg : List Nat) : (sha256 msg).length = 32 := by
  show (((wordsToBlocks (bytesToWords (shaPad msg))).foldl shaCompress
    shaH0).flatMap wordToBytes).length = 32
  rw [flatMap_wordToBytes_length, foldl_shaCompress_length _ _ (by rfl)]

theorem hmacSha256_length (key msg : List Nat) : (hmacSha256 key msg).length = 32 := by
  simp [hmacSha256, sha256_length]

theorem hexEncode_length (bs : List Nat) : (hexEncode bs).length = 2 * bs.length := by
  show (bs.flatMap fun b =>
    [hexDigitChar (b / 16 % 16), hexDigitChar (b % 16)]).length = 2 * bs.length
  induction bs with
  | nil => rfl
  | cons b rest ih =>
      simp only [List.flatMap_cons, List.length_append, ih, List.length_cons]
      simp
      omega

theorem calcHashOf_length (bt : String) (d : List (String × String)) :
    (calcHashOf bt d).length = 64 := by
  simp [calcHashOf, hexEncode_length, hmacSha256_length]

theorem calcHashOf_ne_empty (bt : String) (d : List (String × String)) :
    calcHashOf bt d ≠ "" := by
  intro h
  have hl := calcHashOf_length bt d
  rw [h] at hl
  simp at hl

/-! ## Claims -/

/-- C1: for every non-empty payload parsed into key-value pairs
(keep-blank-values, last-value-wins), if the received `hash` value equals
the hex-encoded HMAC-SHA256 of the check-string of the remaining pairs
under the key derived from the bot token, and the `user` pair is present
with a JSON-parseable value, then `verify_init_data` succeeds and returns
exactly the parsed `user` JSON value. -/
theorem verify_valid_returns_user (bt s h u : String)
    (ps : List (String × String)) (v : JVal)
    (hs : s ≠ "")
    (hps : pyDictOf (parseQsl s) = ps)
    (hh : dictGet ps "hash" = some h)
    (hcalc : h = calcHashOf bt (dictPop ps "hash"))
    (hu : dictGet (dictPop ps "hash") "user" = some u)
    (hv : jsonParse u = some v) :
    verifyInitData bt s = .ok v := by
  subst hps
  subst hcalc
  have hune : u ≠ "" := by
    intro he
    have hnone : jsonParse "" = none := rfl
    rw [he, hnone] at hv
    exact Option.noConfusion hv
  unfold verifyInitData
  rw [if_neg hs]
  unfold verifyPairs
  rw [hh]
  simp only
  rw [if_neg (calcHashOf_ne_empty bt _)]
  rw [if_neg (fun hcon => hcon rfl)]
  rw [hu]
  simp only
  rw [if_neg hune, hv]

/-- Witness for C1: the payload with pairs
`auth_date=1700000000`, `user` the JSON object with `id` 42, and a
correctly computed hash under bot token `"botsecret"` verifies and the
returned identity has `id` equal to 42. -/
theorem verify_valid_returns_user_witness :
    verifyInitData "botsecret"
      "auth_date=1700000000&hash=47327701b51556783f326c5b496db402c0ad092356dcd0447fa9ed316f55cbf4&user=\x7b\"id\":42\x7d"
      = .ok (.jobj [("id", .jint 42)]) ∧
    jGet (.jobj [("id", .jint 42)]) "id" = some (.jint 42) :=
  ⟨verify_valid_returns_user "botsecret"
      "auth_date=1700000000&hash=47327701b51556783f326c5b496db402c0ad092356dcd0447fa9ed316f55cbf4&user=\x7b\"id\":42\x7d"
      "47327701b51556783f326c5b496db402c0ad092356dcd0447fa9ed316f55cbf4"
      "\x7b\"id\":42\x7d"
      [("auth_date", "1700000000"),
       ("hash", "47327701b51556783f326c5b496db402c0ad092356dcd0447fa9ed316f55cbf4"),
       ("user", "\x7b\"id\":42\x7d")]
      (.jobj [("id", .jint 42)])
      (by decide) (by decide) (by decide) (by decide) (by decide) rfl,
   rfl⟩

/-- Inversion of a successful verification: the received hash was present,
non-empty, and equal to the computed one. -/
theorem verifyPairs_ok_inv (bt : String) (ps : List (String × String))
    (v : JVal) (h : String)
    (hh : dictGet ps "hash" = some h)
    (hok : verifyPairs bt ps = .ok v) :
    h ≠ "" ∧ calcHashOf bt (dictPop ps "hash") = h := by
  simp only [verifyPairs, hh] at hok
  by_cases hhe : h = ""
  · rw [if_pos hhe] at hok
    exact Except.noConfusion hok
  · refine ⟨hhe, ?_⟩
    rw [if_neg hhe] at hok
    by_cases hc : calcHashOf bt (dictPop ps "hash") ≠ h
    · rw [if_pos hc] at hok
      exact Except.noConfusion hok
    · exact not_not.mp hc

/-- A string of length zero is empty. -/
theorem eq_empty_of_length_zero (s : String) (h : s.length = 0) : s = "" := by
  cases s with
  | mk data =>
      cases data with
      | nil => rfl
      | cons c cs => exact absurd h (by simp [String.length])

/-- C4: the failure modes of `verify_init_data` are distinguished in
order: the empty payload fails with the missing-payload error; a
non-empty payload whose parsed pairs carry no `hash` key fails with the
missing-hash error; and a bad-signature failure can only arise when a
non-empty `hash` value was received. -/
theorem verify_failure_modes (bt s : String)
    (hs : s ≠ "")
    (hnone : dictGet (pyDictOf (parseQsl s)) "hash" = none) :
    verifyInitData bt "" = .error (.http 401 "Missing initData") ∧
    verifyInitData bt s = .error (.http 401 "Missing hash") ∧
    (∀ t : String, verifyInitData bt t = .error (.http 401 "Bad signature") →
      ∃ h, dictGet (pyDictOf (parseQsl t)) "hash" = some h ∧ h ≠ "") := by
  refine ⟨rfl, ?_, ?_⟩
  · unfold verifyInitData
    rw [if_neg hs]
    simp only [verifyPairs, hnone]
  · intro t ht
    unfold verifyInitData at ht
    by_cases hte : t = ""
    · rw [if_pos hte] at ht
      simp at ht
    · rw [if_neg hte] at ht
      cases hg : dictGet (pyDictOf (parseQsl t)) "hash" with
      | none =>
          simp only [verifyPairs, hg] at ht
          simp at ht
      | some h =>
          refine ⟨h, rfl, ?_⟩
          intro hhe
          simp only [verifyPairs, hg, if_pos hhe] at ht
          simp at ht

/-- Witness for C4: under bot token `"tok"`, the empty payload fails with
the missing-payload error and the payload `a=b` (no `hash` pair) fails
with the missing-hash error. -/
theorem verify_failure_modes_witness :
    verifyInitData "tok" "" = .error (.http 401 "Missing initData") ∧
    verifyInitData "tok" "a=b" = .error (.http 401 "Missing hash") :=
  ⟨(verify_failure_modes "tok" "a=b" (by decide) (by decide)).1,
   (verify_failure_modes "tok" "a=b" (by decide) (by decide)).2.1⟩

/-- C10: a `hash` pair with an empty value is treated like an absent hash
(missing-hash error, not bad-signature), and with a valid signature a
`user` pair with an empty value is treated like an absent user
(missing-user error, not bad-user-json). -/
theorem verify_blank_values (bt s t : String)
    (hs : s ≠ "")
    (hhash : dictGet (pyDictOf (parseQsl s)) "hash" = some "")
    (ht : t ≠ "")
    (hth : dictGet (pyDictOf (parseQsl t)) "hash"
      = some (calcHashOf bt (dictPop (pyDictOf (parseQsl t)) "hash")))
    (htu : dictGet (dictPop (pyDictOf (parseQsl t)) "hash") "user" = some "") :
    verifyInitData bt s = .error (.http 401 "Missing hash") ∧
    verifyInitData bt t = .error (.http 401 "Missing user") := by
  constructor
  · unfold verifyInitData
    rw [if_neg hs]
    simp only [verifyPairs, hhash]
    simp
  · unfold verifyInitData
    rw [if_neg ht]
    simp only [verifyPairs, hth]
    rw [if_neg (calcHashOf_ne_empty bt _)]
    rw [if_neg (fun hcon => hcon rfl)]
    rw [htu]
    simp

/-- Witness for C10: `a=b&hash=` fails with the missing-hash error, and a
correctly signed payload whose `user` value is empty fails with the
missing-user error. -/
theorem verify_blank_values_witness :
    verifyInitData "botsecret" "a=b&hash=" = .error (.http 401 "Missing hash") ∧
    verifyInitData "botsecret"
      "auth_date=1700000000&user=&hash=06fd7cfe1e5500f5c91d0d93b61485d889ae624013a98b001aac281906998144"
      = .error (.http 401 "Missing user") :=
  verify_blank_values "botsecret" "a=b&hash="
    "auth_date=1700000000&user=&hash=06fd7cfe1e5500f5c91d0d93b61485d889ae624013a98b001aac281906998144"
    (by decide) (by decide) (by decide) (by decide) (by decide)

/-- C9: starting from a payload that verifies successfully with received
hash `h`, any payload whose parse differs only in that the `hash` value
`h2` differs from `h` in some character (same length, different string)
fails verification with the bad-signature error. -/
theorem verify_hash_flip (bt s s2 h h2 : String) (v : JVal)
    (hok : verifyInitData bt s = .ok v)
    (hh : dictGet (pyDictOf (parseQsl s)) "hash" = some h)
    (hs2 : s2 ≠ "")
    (hh2 : dictGet (pyDictOf (parseQsl s2)) "hash" = some h2)
    (hpop : dictPop (pyDictOf (parseQsl s2)) "hash"
      = dictPop (pyDictOf (parseQsl s)) "hash")
    (hlen : h2.length = h.length)
    (hne : h2 ≠ h) :
    verifyInitData bt s2 = .error (.http 401 "Bad signature") := by
  have hsne : s ≠ "" := by
    intro he
    rw [he] at hok
    simp [verifyInitData] at hok
  have hinv : h ≠ "" ∧ calcHashOf bt (dictPop (pyDictOf (parseQsl s)) "hash") = h := by
    apply verifyPairs_ok_inv bt _ v h hh
    unfold verifyInitData at hok
    rw [if_neg hsne] at hok
    exact hok
  have hh2ne : h2 ≠ "" := by
    intro he
    apply hinv.1
    apply eq_empty_of_length_zero
    rw [← hlen, he]
    rfl
  unfold verifyInitData
  rw [if_neg hs2]
  simp only [verifyPairs, hh2]
  rw [if_neg hh2ne]
  rw [if_pos ?hcond]
  case hcond =>
    rw [hpop, hinv.2]
    exact fun he => hne he.symm

/-- Witness for C9: the valid payload of the C1 example still verifies,
and flipping the first character of its hash from `4` to `5` makes
verification fail with the bad-signature error. -/
theorem verify_hash_flip_witness :
    verifyInitData "botsecret"
      "auth_date=1700000000&hash=47327701b51556783f326c5b496db402c0ad092356dcd0447fa9ed316f55cbf4&user=\x7b\"id\":42\x7d"
      = .ok (.jobj [("id", .jint 42)]) ∧
    verifyInitData "botsecret"
      "auth_date=1700000000&hash=57327701b51556783f326c5b496db402c0ad092356dcd0447fa9ed316f55cbf4&user=\x7b\"id\":42\x7d"
      = .error (.http 401 "Bad signature") :=
  ⟨rfl,
   verify_hash_flip "botsecret"
    "auth_date=1700000000&hash=47327701b51556783f326c5b496db402c0ad092356dcd0447fa9ed316f55cbf4&user=\x7b\"id\":42\x7d"
    "auth_date=1700000000&hash=57327701b51556783f326c5b496db402c0ad092356dcd0447fa9ed316f55cbf4&user=\x7b\"id\":42\x7d"
    "47327701b51556783f326c5b496db402c0ad092356dcd0447fa9ed316f55cbf4"
    "57327701b51556783f326c5b496db402c0ad092356dcd0447fa9ed316f55cbf4"
    (.jobj [("id", .jint 42)])
    rfl (by decide) (by decide) (by decide) (by decide) (by decide) (by decide)⟩

/-- C3 (amended): when verification succeeds but the identity's `id` is
absent or not coercible to an integer, `me_orders` raises an ordinary
Python exception, surfaced as an unhandled (HTTP 500) error rather than
a 401. -/
theorem me_orders_id_unhandled (bt s : String) (db : List OrderRow) (v : JVal)
    (hok : verifyInitData bt s = .ok v)
    (hid : ((jGet v "id").bind pyInt) = none) :
    ∃ m, meOrders bt s db = .error (.unhandled m) := by
  simp only [meOrders, hok]
  cases hg : jGet v "id" with
  | none =>
      simp only [hg]
      exact ⟨_, rfl⟩
  | some idv =>
      rw [hg] at hid
      simp at hid
      simp only [hg, hid]
      exact ⟨_, rfl⟩

/-- Witness for C3's amended claim: on a correctly signed payload whose
user object has no `id` field, `me_orders` fails with an unhandled
error. -/
theorem me_orders_id_unhandled_witness :
    ∃ m, meOrders "botsecret"
      "auth_date=1700000000&hash=120131cac9809dae5aad67701b9f54987dd47fccdd7adb16309bea8b192d0110&user=\x7b\"a\":1\x7d"
      [] = .error (.unhandled m) :=
  me_orders_id_unhandled "botsecret"
    "auth_date=1700000000&hash=120131cac9809dae5aad67701b9f54987dd47fccdd7adb16309bea8b192d0110&user=\x7b\"a\":1\x7d"
    [] (.jobj [("a", .jint 1)]) rfl rfl

/-- Counterexample for C3 as stated: this request passes signature
verification, its identity has no `id` field, and the handler does not
fail with HTTP 401 — it fails with an unhandled (500) error. -/
theorem me_orders_id_not_401 :
    verifyInitData "botsecret"
      "auth_date=1700000000&hash=120131cac9809dae5aad67701b9f54987dd47fccdd7adb16309bea8b192d0110&user=\x7b\"a\":1\x7d"
      = .ok (.jobj [("a", .jint 1)]) ∧
    jGet (.jobj [("a", .jint 1)]) "id" = none ∧
    meOrders "botsecret"
      "auth_date=1700000000&hash=120131cac9809dae5aad67701b9f54987dd47fccdd7adb16309bea8b192d0110&user=\x7b\"a\":1\x7d"
      [] = .error (.unhandled "user id lookup raised") ∧
    isHttpStatus 401 (meOrders "botsecret"
      "auth_date=1700000000&hash=120131cac9809dae5aad67701b9f54987dd47fccdd7adb16309bea8b192d0110&user=\x7b\"a\":1\x7d"
      ([] : List OrderRow)) = false :=
  ⟨rfl, rfl, rfl, rfl⟩

/-! ## Repository lemmas: sorting -/

/-- Inserting into a descending list permutes to consing. -/
theorem insRowDesc_perm (r : OrderRow) (l : List OrderRow) :
    (insRowDesc r l).Perm (r :: l) := by
  induction l with
  | nil => exact List.Perm.refl _
  | cons x xs ih =>
      unfold insRowDesc
      by_cases h : x.created_at < r.created_at
      · rw [if_pos h]
      · rw [if_neg h]
        exact (ih.cons x).trans (List.Perm.swap r x xs)

/-- Insertion sort output permutes to the input. -/
theorem sortRowsDesc_perm (l : List OrderRow) : (sortRowsDesc l).Perm l := by
  induction l with
  | nil => exact List.Perm.refl _
  | cons x xs ih => exact (insRowDesc_perm x (sortRowsDesc xs)).trans (ih.cons x)

/-- Insertion into a descending-sorted list keeps it sorted. -/
theorem insRowDesc_sorted (r : OrderRow) (l : List OrderRow)
    (h : l.Pairwise fun a b => b.created_at ≤ a.created_at) :
    (insRowDesc r l).Pairwise fun a b => b.created_at ≤ a.created_at := by
  induction l with
  | nil => simp [insRowDesc]
  | cons x xs ih =>
      rcases List.pairwise_cons.mp h with ⟨hx, hxs⟩
      unfold insRowDesc
      by_cases hc : x.created_at < r.created_at
      · rw [if_pos hc]
        refine List.pairwise_cons.mpr ⟨?_, h⟩
        intro y hy
        rcases List.mem_cons.mp hy with rfl | hyxs
        · exact Nat.le_of_lt hc
        · exact Nat.le_trans (hx y hyxs) (Nat.le_of_lt hc)
      · rw [if_neg hc]
        refine List.pairwise_cons.mpr ⟨?_, ih hxs⟩
        intro y hy
        rcases List.mem_cons.mp ((insRowDesc_perm r xs).mem_iff.mp hy) with rfl | hyxs
        · exact Nat.le_of_not_lt hc
        · exact hx y hyxs

/-- Insertion sort output is sorted by `created_at` descending. -/
theorem sortRowsDesc_sorted (l : List OrderRow) :
    (sortRowsDesc l).Pairwise fun a b => b.created_at ≤ a.created_at := by
  induction l with
  | nil => simp [sortRowsDesc]
  | cons x xs ih => exact insRowDesc_sorted x (sortRowsDesc xs) ih

/-- C8: listing orders returns exactly the stored rows whose
`owner_tg_id` equals the given identifier, ordered by `created_at`
descending, and for an owner with no rows it returns the empty sequence
rather than an error. -/
theorem list_by_owner_spec (tg : Int) (db : List OrderRow) :
    ((listByOwner tg db).Pairwise fun a b => b.created_at ≤ a.created_at) ∧
    (listByOwner tg db).Perm (db.filter fun r => r.owner_tg_id = some tg) ∧
    ((∀ r ∈ db, r.owner_tg_id ≠ some tg) → listByOwner tg db = []) := by
  refine ⟨sortRowsDesc_sorted _, sortRowsDesc_perm _, ?_⟩
  intro hnone
  show sortRowsDesc (db.filter fun r => r.owner_tg_id = some tg) = []
  have hnil : db.filter (fun r => r.owner_tg_id = some tg) = [] := by
    rw [List.filter_eq_nil_iff]
    intro r hr
    simpa using hnone r hr
  rw [hnil]
  rfl

/-- Witness for C8: a two-row table comes back most recent first, and an
owner with no rows gets the empty list. -/
theorem list_by_owner_spec_witness :
    listByOwner 5 [] = [] ∧
    listByOwner 7
      [⟨"A", some 7, none, "coat", "[]", "new", none, none, false, 3, 3⟩,
       ⟨"B", some 7, none, "hat", "[]", "new", none, none, false, 9, 9⟩]
      = [⟨"B", some 7, none, "hat", "[]", "new", none, none, false, 9, 9⟩,
         ⟨"A", some 7, none, "coat", "[]", "new", none, none, false, 3, 3⟩] :=
  ⟨(list_by_owner_spec 5 []).2.2 (by simp), rfl⟩

/-- C7: the admin upsert handler fails with HTTP 401 exactly when the
supplied token is not character-for-character equal to the configured
admin token; the mismatch is decided before the request body is even
parsed (the conclusion holds for an unparseable body too) and leaves the
stored orders unchanged. -/
theorem admin_token_gate (adm tok : String) (body : Option UpsertBody)
    (now : Nat) (db : List OrderRow) :
    (tok ≠ adm →
      adminUpsert adm tok body now db = (.error (.http 401 "Bad admin token"), db)) ∧
    (tok = adm →
      ∀ m, (adminUpsert adm tok body now db).1 ≠ .error (.http 401 m)) := by
  constructor
  · intro hne
    unfold adminUpsert
    rw [if_pos hne]
  · intro heq m
    subst heq
    unfold adminUpsert
    rw [if_neg (fun hcon => hcon rfl)]
    cases body with
    | none => simp
    | some b =>
        by_cases h1 : pyStrip b.public_no = "" <;>
          by_cases h2 : pyStrip b.item = "" <;>
          by_cases h3 : pyStrip b.status = "" <;>
          simp [h1, h2, h3]

/-- Witness for C7: a near-matching token of the same length is rejected
with 401 and the table is untouched, even with an unparseable body. -/
theorem admin_token_gate_witness :
    adminUpsert "secret" "secreT" none 0 []
      = (.error (.http 401 "Bad admin token"), []) :=
  (admin_token_gate "secret" "secreT" none 0 []).1 (by decide)

/-- C6: with a correct admin token and a parsed body, the upsert fails
with HTTP 400 exactly when one of `public_no`, `item`, `status` is empty
after trimming, and on that failure no database write occurs. -/
theorem upsert_validation (tok : String) (b : UpsertBody) (now : Nat)
    (db : List OrderRow) :
    ((∃ m, (adminUpsert tok tok (some b) now db).1 = .error (.http 400 m)) ↔
      (pyStrip b.public_no = "" ∨ pyStrip b.item = "" ∨ pyStrip b.status = "")) ∧
    ((pyStrip b.public_no = "" ∨ pyStrip b.item = "" ∨ pyStrip b.status = "") →
      (adminUpsert tok tok (some b) now db).2 = db) := by
  unfold adminUpsert
  rw [if_neg (fun hcon => hcon rfl)]
  by_cases h1 : pyStrip b.public_no = "" <;>
    by_cases h2 : pyStrip b.item = "" <;>
    by_cases h3 : pyStrip b.status = "" <;>
    simp [h1, h2, h3]

/-- Witness for C6: a body whose `public_no` is blank after trimming is
rejected with 400 and the table is untouched. -/
theorem upsert_validation_witness :
    (adminUpsert "tk" "tk" (some ⟨" ", "coat", "new", none, none, [], none, none⟩)
      7 []).1 = .error (.http 400 "public_no required") ∧
    (adminUpsert "tk" "tk" (some ⟨" ", "coat", "new", none, none, [], none, none⟩)
      7 []).2 = [] :=
  ⟨rfl,
   (upsert_validation "tk" ⟨" ", "coat", "new", none, none, [], none, none⟩
      7 []).2 (Or.inl (by decide))⟩

/-! ## Repository lemmas: upsert -/

section UpsertLemmas

variable {now : Nat} {pn : String} {otg : Option Int} {oph : Option String}
variable {it sj st : String} {pr : Option Int} {cm : Option String}

theorem updRow_public_no (r : OrderRow) :
    (updRow now pn otg oph it sj st pr cm r).public_no = r.public_no := by
  unfold updRow
  split <;> rfl

theorem updRow_of_ne (r : OrderRow) (h : r.public_no ≠ pn) :
    updRow now pn otg oph it sj st pr cm r = r := by
  unfold updRow
  rw [if_neg h]

theorem updRow_of_eq (r : OrderRow) (h : r.public_no = pn) :
    updRow now pn otg oph it sj st pr cm r =
      ⟨pn, otg, oph, it, sj, st, pr, cm, r.is_closed, r.created_at, now⟩ := by
  unfold updRow
  rw [if_pos h, h]

/-- Fresh-insert case: with no conflicting row, the upsert appends one row
with both timestamps set to `now`, and that row is the only one with the
given `public_no`. -/
theorem dbUpsert_filter_of_fresh (db : List OrderRow)
    (hno : ∀ r ∈ db, r.public_no ≠ pn) :
    (dbUpsert now pn otg oph it sj st pr cm db).filter
      (fun r => r.public_no = pn) =
      [⟨pn, otg, oph, it, sj, st, pr, cm, false, now, now⟩] := by
  have hany : (db.any fun r => r.public_no = pn) = false := by
    simp only [List.any_eq_false, decide_eq_true_eq]
    exact hno
  unfold dbUpsert
  rw [hany]
  simp only [Bool.false_eq_true, if_false]
  rw [List.filter_append]
  have h1 : db.filter (fun r => r.public_no = pn) = [] := by
    rw [List.filter_eq_nil_iff]
    intro r hr
    simpa using hno r hr
  rw [h1]
  simp

/-- Rewriting through `updRow` keeps exactly one row with the conflicting
`public_no`, carrying the new mutable fields and the old row's
`is_closed` and `created_at`. -/
theorem filter_map_updRow (r0 : OrderRow) (db : List OrderRow) :
    (db.Pairwise fun a b => a.public_no ≠ b.public_no) → r0 ∈ db →
    r0.public_no = pn →
    (db.map (updRow now pn otg oph it sj st pr cm)).filter
      (fun r => r.public_no = pn) =
      [⟨pn, otg, oph, it, sj, st, pr, cm, r0.is_closed, r0.created_at, now⟩] := by
  induction db with
  | nil => intro _ hr0 _; cases hr0
  | cons x xs ih =>
      intro hnodup hr0 hpn
      rcases List.pairwise_cons.mp hnodup with ⟨hx, hxs⟩
      rcases List.mem_cons.mp hr0 with rfl | hr0xs
      · have htail : ∀ y ∈ xs, y.public_no ≠ pn := by
          intro y hy
          rw [← hpn]
          exact (hx y hy).symm
        have htail2 : (xs.map (updRow now pn otg oph it sj st pr cm)).filter
            (fun r => r.public_no = pn) = [] := by
          rw [List.filter_eq_nil_iff]
          intro z hz
          rcases List.mem_map.mp hz with ⟨y, hy, rfl⟩
          simp only [updRow_public_no, decide_eq_true_eq]
          exact htail y hy
        simp only [List.map_cons, updRow_of_eq r0 hpn, List.filter_cons]
        simp only [decide_eq_true_eq]
        rw [if_pos trivial, htail2]
      · have hxne : x.public_no ≠ pn := by
          rw [← hpn]
          exact hx r0 hr0xs
        simp only [List.map_cons, updRow_of_ne x hxne, List.filter_cons]
        simp only [decide_eq_true_eq]
        rw [if_neg hxne]
        exact ih hxs hr0xs hpn

/-- Conflict case: with a (unique) conflicting row `r0`, the upsert leaves
exactly one row with the given `public_no`, carrying the new mutable
fields, `r0`'s `is_closed` and `created_at`, and `updated_at = now`. -/
theorem dbUpsert_filter_of_conflict (db : List OrderRow)
    (hnodup : db.Pairwise fun a b => a.public_no ≠ b.public_no)
    (r0 : OrderRow) (hr0 : r0 ∈ db) (hpn : r0.public_no = pn) :
    (dbUpsert now pn otg oph it sj st pr cm db).filter
      (fun r => r.public_no = pn) =
      [⟨pn, otg, oph, it, sj, st, pr, cm, r0.is_closed, r0.created_at, now⟩] := by
  have hany : (db.any fun r => r.public_no = pn) = true := by
    simp only [List.any_eq_true, decide_eq_true_eq]
    exact ⟨r0, hr0, hpn⟩
  unfold dbUpsert
  rw [hany, if_pos rfl]
  exact filter_map_updRow r0 db hnodup hr0 hpn

/-- The upsert preserves the uniqueness invariant on `public_no`. -/
theorem dbUpsert_nodup (db : List OrderRow)
    (hnodup : db.Pairwise fun a b => a.public_no ≠ b.public_no) :
    (dbUpsert now pn otg oph it sj st pr cm db).Pairwise
      fun a b => a.public_no ≠ b.public_no := by
  unfold dbUpsert
  by_cases hany : (db.any fun r => r.public_no = pn) = true
  · rw [hany, if_pos rfl]
    rw [List.pairwise_map]
    exact hnodup.imp fun hab => by simpa only [updRow_public_no] using hab
  · have hf : (db.any fun r => r.public_no = pn) = false :=
      Bool.eq_false_iff.mpr hany
    rw [hf]
    simp only [Bool.false_eq_true, if_false]
    refine List.pairwise_append.mpr ⟨hnodup, List.pairwise_singleton _ _, ?_⟩
    intro a ha b hb
    rcases List.mem_singleton.mp hb with rfl
    show a.public_no ≠ pn
    simp only [List.any_eq_false, decide_eq_true_eq] at hf
    exact hf a ha

end UpsertLemmas

/-- A successful upsert call: with a correct token and non-empty required
fields, the handler responds ok and writes exactly the normalized row
through `dbUpsert`. -/
theorem adminUpsert_success (tok : String) (b : UpsertBody) (now : Nat)
    (db : List OrderRow)
    (hpn : pyStrip b.public_no ≠ "") (hit : pyStrip b.item ≠ "")
    (hst : pyStrip b.status ≠ "") :
    adminUpsert tok tok (some b) now db =
      (.ok (), dbUpsert now (pyStrip b.public_no) b.owner_tg_id b.owner_phone
        (pyStrip b.item) (jsonDumpStrList (servicesClean b.services))
        (pyStrip b.status) b.price b.comment db) := by
  unfold adminUpsert
  rw [if_neg (fun h => h rfl)]
  simp only
  rw [if_neg hpn]
  rw [if_neg (fun h => h.elim hit hst)]

/-- Under the uniqueness invariant, at most one stored row matches a
given `public_no`. -/
theorem filter_pn_short (db : List OrderRow)
    (hnodup : db.Pairwise fun a b => a.public_no ≠ b.public_no) (pn : String) :
    db.filter (fun r => r.public_no = pn) = [] ∨
    ∃ r0, db.filter (fun r => r.public_no = pn) = [r0] ∧ r0 ∈ db ∧
      r0.public_no = pn := by
  cases hfe : db.filter (fun r => r.public_no = pn) with
  | nil => exact Or.inl rfl
  | cons r0 tl =>
      have hm0 : r0 ∈ db.filter (fun r => r.public_no = pn) := by
        rw [hfe]
        exact List.mem_cons_self _ _
      have m0 : r0.public_no = pn := by simpa using List.of_mem_filter hm0
      refine Or.inr ⟨r0, ?_, List.mem_of_mem_filter hm0, m0⟩
      cases htl : tl with
      | nil => rfl
      | cons r1 tl2 =>
          exfalso
          have hpf : (db.filter fun r => r.public_no = pn).Pairwise
              (fun a b => a.public_no ≠ b.public_no) := hnodup.filter _
          rw [hfe, htl] at hpf
          rcases List.pairwise_cons.mp hpf with ⟨hhead, _⟩
          have hm1 : r1 ∈ db.filter (fun r => r.public_no = pn) := by
            rw [hfe, htl]
            exact List.mem_cons_of_mem _ (List.mem_cons_self _ _)
          have m1 : r1.public_no = pn := by simpa using List.of_mem_filter hm1
          exact hhead r1 (List.mem_cons_self _ _) (by rw [m0, m1])

/-- One successful upsert call in full: the handler responds ok, keeps the
uniqueness invariant, and exactly one stored row carries the submitted
`public_no`, with the normalized submitted fields, `updated_at`
refreshed to `now`, and `created_at` equal to `now` on a fresh insert or
to the previous row's `created_at` on a conflict. -/
theorem adminUpsert_write (tok : String) (b : UpsertBody) (now : Nat)
    (db : List OrderRow)
    (hnodup : db.Pairwise fun a b => a.public_no ≠ b.public_no)
    (hpn : pyStrip b.public_no ≠ "") (hit : pyStrip b.item ≠ "")
    (hst : pyStrip b.status ≠ "") :
    ∃ r : OrderRow,
      (adminUpsert tok tok (some b) now db).1 = .ok () ∧
      ((adminUpsert tok tok (some b) now db).2.Pairwise
        fun a c => a.public_no ≠ c.public_no) ∧
      (adminUpsert tok tok (some b) now db).2.filter
        (fun x => x.public_no = pyStrip b.public_no) = [r] ∧
      r.public_no = pyStrip b.public_no ∧
      r.owner_tg_id = b.owner_tg_id ∧
      r.owner_phone = b.owner_phone ∧
      r.item = pyStrip b.item ∧
      r.services_json = jsonDumpStrList (servicesClean b.services) ∧
      r.status = pyStrip b.status ∧
      r.price = b.price ∧
      r.comment = b.comment ∧
      r.updated_at = now ∧
      (db.filter (fun x => x.public_no = pyStrip b.public_no) = [] →
        r.created_at = now) ∧
      (∀ r0, db.filter (fun x => x.public_no = pyStrip b.public_no) = [r0] →
        r.created_at = r0.created_at) := by
  rw [adminUpsert_success tok b now db hpn hit hst]
  dsimp only
  rcases filter_pn_short db hnodup (pyStrip b.public_no) with hnil |
    ⟨r0, hfe, hr0, hr0pn⟩
  · have hno : ∀ r ∈ db, r.public_no ≠ pyStrip b.public_no := by
      rw [List.filter_eq_nil_iff] at hnil
      intro r hr
      simpa using hnil r hr
    refine ⟨⟨pyStrip b.public_no, b.owner_tg_id, b.owner_phone, pyStrip b.item,
      jsonDumpStrList (servicesClean b.services), pyStrip b.status, b.price,
      b.comment, false, now, now⟩, rfl, dbUpsert_nodup db hnodup,
      dbUpsert_filter_of_fresh db hno, rfl, rfl, rfl, rfl, rfl, rfl, rfl, rfl,
      rfl, fun _ => rfl, ?_⟩
    intro r0 h
    rw [hnil] at h
    exact List.noConfusion h
  · refine ⟨⟨pyStrip b.public_no, b.owner_tg_id, b.owner_phone, pyStrip b.item,
      jsonDumpStrList (servicesClean b.services), pyStrip b.status, b.price,
      b.comment, r0.is_closed, r0.created_at, now⟩, rfl,
      dbUpsert_nodup db hnodup,
      dbUpsert_filter_of_conflict db hnodup r0 hr0 hr0pn,
      rfl, rfl, rfl, rfl, rfl, rfl, rfl, rfl, rfl, ?_, ?_⟩
    · intro h
      rw [hfe] at h
      exact List.noConfusion h
    · intro r1 h
      rw [hfe] at h
      have : r0 = r1 := (List.cons.injEq _ _ _ _).mp h |>.1
      rw [this]

/-- C2: two successful upsert calls with the same `public_no` leave
exactly one stored row with that `public_no`; its mutable fields carry
the second call's (normalized) values, its `created_at` is what it was
after the first call, and `updated_at` is refreshed by every call
(`t1` after the first, `t2` after the second, including the create
path). -/
theorem upsert_twice (tok : String) (b1 b2 : UpsertBody) (t1 t2 : Nat)
    (db : List OrderRow)
    (hnodup : db.Pairwise fun a b => a.public_no ≠ b.public_no)
    (hpn : pyStrip b2.public_no = pyStrip b1.public_no)
    (hpn1 : pyStrip b1.public_no ≠ "")
    (hit1 : pyStrip b1.item ≠ "") (hst1 : pyStrip b1.status ≠ "")
    (hit2 : pyStrip b2.item ≠ "") (hst2 : pyStrip b2.status ≠ "") :
    (adminUpsert tok tok (some b1) t1 db).1 = .ok () ∧
    (adminUpsert tok tok (some b2) t2
      (adminUpsert tok tok (some b1) t1 db).2).1 = .ok () ∧
    ∃ r2 r1,
      (adminUpsert tok tok (some b1) t1 db).2.filter
        (fun x => x.public_no = pyStrip b1.public_no) = [r1] ∧
      r1.updated_at = t1 ∧
      (adminUpsert tok tok (some b2) t2
        (adminUpsert tok tok (some b1) t1 db).2).2.filter
        (fun x => x.public_no = pyStrip b1.public_no) = [r2] ∧
      r2.owner_tg_id = b2.owner_tg_id ∧
      r2.owner_phone = b2.owner_phone ∧
      r2.item = pyStrip b2.item ∧
      r2.services_json = jsonDumpStrList (servicesClean b2.services) ∧
      r2.status = pyStrip b2.status ∧
      r2.price = b2.price ∧
      r2.comment = b2.comment ∧
      r2.created_at = r1.created_at ∧
      r2.updated_at = t2 := by
  have hpn2 : pyStrip b2.public_no ≠ "" := by
    rw [hpn]
    exact hpn1
  rcases adminUpsert_write tok b1 t1 db hnodup hpn1 hit1 hst1 with
    ⟨r1, hok1, hnd1, hf1, _, _, _, _, _, _, _, _, hupd1, _, _⟩
  rcases adminUpsert_write tok b2 t2 (adminUpsert tok tok (some b1) t1 db).2
      hnd1 hpn2 hit2 hst2 with
    ⟨r2, hok2, _, hf2, _, ho2, hop2, hi2, hs2, hstat2, hp2, hc2, hupd2, _, hca2⟩
  rw [hpn] at hf2 hca2
  exact ⟨hok1, hok2, r2, r1, hf1, hupd1, hf2, ho2, hop2, hi2, hs2, hstat2,
    hp2, hc2, hca2 r1 hf1, hupd2⟩

/-- Witness for C2: starting from the empty table, upserting `P1` twice
with different fields leaves one row with the second call's values, the
first call's `created_at`, and a refreshed `updated_at`. -/
theorem upsert_twice_witness :
    (adminUpsert "tk" "tk"
      (some ⟨"P1", "coat", "washing", some 7, none, [], some 100, none⟩)
      1 []).1 = .ok () ∧
    (adminUpsert "tk" "tk"
      (some ⟨"P1", "hat", "done", some 8, some "555", ["x"], none, some "hi"⟩) 2
      (adminUpsert "tk" "tk"
        (some ⟨"P1", "coat", "washing", some 7, none, [], some 100, none⟩)
        1 []).2).1 = .ok () ∧
    ∃ r2 r1,
      (adminUpsert "tk" "tk"
        (some ⟨"P1", "coat", "washing", some 7, none, [], some 100, none⟩)
        1 []).2.filter (fun x => x.public_no = pyStrip "P1") = [r1] ∧
      r1.updated_at = 1 ∧
      (adminUpsert "tk" "tk"
        (some ⟨"P1", "hat", "done", some 8, some "555", ["x"], none, some "hi"⟩) 2
        (adminUpsert "tk" "tk"
          (some ⟨"P1", "coat", "washing", some 7, none, [], some 100, none⟩)
          1 []).2).2.filter (fun x => x.public_no = pyStrip "P1") = [r2] ∧
      r2.owner_tg_id = some 8 ∧
      r2.owner_phone = some "555" ∧
      r2.item = pyStrip "hat" ∧
      r2.services_json = jsonDumpStrList (servicesClean ["x"]) ∧
      r2.status = pyStrip "done" ∧
      r2.price = none ∧
      r2.comment = some "hi" ∧
      r2.created_at = r1.created_at ∧
      r2.updated_at = 2 :=
  upsert_twice "tk"
    ⟨"P1", "coat", "washing", some 7, none, [], some 100, none⟩
    ⟨"P1", "hat", "done", some 8, some "555", ["x"], none, some "hi"⟩
    1 2 [] (by simp) (by decide) (by decide) (by decide) (by decide)
    (by decide) (by decide)

/-- C5: a successful upsert stores `services_json` as the JSON array of
the submitted entries, each trimmed, the ones empty after trimming
discarded, order and duplicates of the rest preserved; in particular the
list `["  ", "wash", "", "iron"]` is stored as `["wash", "iron"]`, which
decodes back to exactly those two entries. -/
theorem upsert_services (tok : String) (b : UpsertBody) (now : Nat)
    (db : List OrderRow)
    (hnodup : db.Pairwise fun a b => a.public_no ≠ b.public_no)
    (hpn : pyStrip b.public_no ≠ "") (hit : pyStrip b.item ≠ "")
    (hst : pyStrip b.status ≠ "") :
    (∃ r, (adminUpsert tok tok (some b) now db).2.filter
        (fun x => x.public_no = pyStrip b.public_no) = [r] ∧
      r.services_json =
        jsonDumpStrList ((b.services.map pyStrip).filter fun s => s ≠ "")) ∧
    jsonDumpStrList (((["  ", "wash", "", "iron"] : List String).map
      pyStrip).filter fun s => s ≠ "") = "[\"wash\", \"iron\"]" ∧
    jsonParse "[\"wash\", \"iron\"]" = some (.jarr [.jstr "wash", .jstr "iron"]) := by
  refine ⟨?_, by decide, rfl⟩
  rcases adminUpsert_write tok b now db hnodup hpn hit hst with
    ⟨r, _, _, hf, _, _, _, _, hsj, _⟩
  exact ⟨r, hf, hsj⟩

/-- Witness for C5: upserting with services `["  ", "wash", "", "iron"]`
stores exactly `["wash", "iron"]` as the JSON array. -/
theorem upsert_services_witness :
    ∃ r, (adminUpsert "tk" "tk"
        (some ⟨"P1", "coat", "new", none, none, ["  ", "wash", "", "iron"],
          none, none⟩) 3 []).2.filter
        (fun x => x.public_no = pyStrip "P1") = [r] ∧
      r.services_json =
        jsonDumpStrList (((["  ", "wash", "", "iron"] : List String).map
          pyStrip).filter fun s => s ≠ "") :=
  (upsert_services "tk"
    ⟨"P1", "coat", "new", none, none, ["  ", "wash", "", "iron"], none, none⟩
    3 [] (by simp) (by decide) (by decide) (by decide)).1

end Shetka
